import Mathlib

/-!
Shallow embedding of the percentile-statistics and feature-assembly core of
`src/app.py` (Gn starting-protocol prediction front end).

Python floats are modelled as `FloatV`: either `nan` or a finite rational.
Numpy arrays are modelled as `List FloatV`; `None` values as `Option`.
`np.percentile(arr, q)` (default linear interpolation) is modelled by
`npPercentile`; Python's built-in `round` (round half to even) by `pyRound`.
-/

/-- A Python float value: NaN or a finite rational. -/
inductive FloatV where
  | nan : FloatV
  | val (x : ℚ) : FloatV
deriving DecidableEq

/-- Model of `np.isnan` on a single value. -/
def FloatV.isNaN : FloatV → Bool
  | FloatV.nan => true
  | FloatV.val _ => false

/-- The finite rational carried by a non-NaN value. -/
def FloatV.toRat : FloatV → Option ℚ
  | FloatV.nan => none
  | FloatV.val x => some x

/-- IEEE comparison `a < b`: any comparison involving NaN is false. -/
def FloatV.ltB : FloatV → FloatV → Bool
  | FloatV.val a, FloatV.val b => decide (a < b)
  | _, _ => false

/-- Model of `arr[~np.isnan(arr)]`: keep the non-NaN entries, in order. -/
def cleanArr (l : List FloatV) : List FloatV :=
  l.filter (fun v => ! v.isNaN)

/-- The rationals carried by a float list (NaN entries dropped). -/
def ratsOf (l : List FloatV) : List ℚ :=
  l.filterMap FloatV.toRat

/-- Sort a list of rationals ascending, as `np.percentile` does internally. -/
def sortRats (l : List ℚ) : List ℚ :=
  l.insertionSort (fun a b => a ≤ b)

/-- Linear interpolation of a sorted sample `s` at fractional position `p`:
`s[⌊p⌋] + (p − ⌊p⌋) · (s[⌊p⌋+1] − s[⌊p⌋])`, with the upper index clipped to
the list (out-of-range upper index contributes nothing, as numpy clips). -/
def interpAt (s : List ℚ) (p : ℚ) : ℚ :=
  s.getD (⌊p⌋).toNat 0 +
    (p - (((⌊p⌋).toNat : ℕ) : ℚ)) *
      (s.getD ((⌊p⌋).toNat + 1) (s.getD (⌊p⌋).toNat 0) - s.getD (⌊p⌋).toNat 0)

/-- Model of `np.percentile(l, q)` with the default linear-interpolation
method: interpolate the sorted sample at virtual index `q·(n−1)/100`. -/
def npPercentile (q : ℚ) (l : List ℚ) : ℚ :=
  let s := sortRats l
  interpAt s (q * ((s.length : ℚ) - 1) / 100)

/-- Python's built-in `round` to an integer: nearest, ties to even. -/
def pyRound (q : ℚ) : ℤ :=
  if q - ((⌊q⌋ : ℤ) : ℚ) < 1 / 2 then ⌊q⌋
  else if 1 / 2 < q - ((⌊q⌋ : ℤ) : ℚ) then ⌊q⌋ + 1
  else if ⌊q⌋ % 2 = 0 then ⌊q⌋ else ⌊q⌋ + 1

/-- A reference-distribution entry from `e2_percentiles`: either a summary
dict holding (possibly missing) `p25`/`p50`/`p75` keys, or a raw sample
array. -/
inductive DistObj where
  | dict (p25 p50 p75 : Option FloatV) : DistObj
  | arr (vals : List FloatV) : DistObj
deriving DecidableEq

/-- The result record built by `get_dist_stats`. -/
structure DistStats where
  p25 : Option FloatV
  p50 : Option FloatV
  p75 : Option FloatV
  values : Option (List FloatV)
deriving DecidableEq

/-- Model of `get_dist_stats` (src/app.py lines 96-115). -/
def get_dist_stats : Option DistObj → Option DistStats
  | none => none
  | some (DistObj.dict a b c) =>
    some { p25 := a, p50 := b, p75 := c, values := none }
  | some (DistObj.arr vals) =>
    let arr := cleanArr vals
    if arr.isEmpty then none
    else
      some { p25 := some (FloatV.val (npPercentile 25 (ratsOf arr))),
             p50 := some (FloatV.val (npPercentile 50 (ratsOf arr))),
             p75 := some (FloatV.val (npPercentile 75 (ratsOf arr))),
             values := some arr }

/-- Outcome of a `percentile_rank` call: a rank, a `None` return, or a raised
exception. -/
inductive PRResult where
  | err : PRResult
  | null : PRResult
  | rank (r : ℤ) : PRResult
deriving DecidableEq

/-- Model of `percentile_rank` (src/app.py lines 117-120).  On an empty
non-null array the Python code evaluates `0 / 0`, which numpy turns into NaN,
and `int(round(nan))` raises `ValueError`; that failure is modelled as
`PRResult.err`. -/
def percentile_rank (values_arr : Option (List FloatV)) (x : FloatV) : PRResult :=
  match values_arr, x with
  | none, _ => PRResult.null
  | some _, FloatV.nan => PRResult.null
  | some vs, FloatV.val y =>
    if vs.length = 0 then PRResult.err
    else
      PRResult.rank (pyRound
        (((vs.countP (fun v => FloatV.ltB v (FloatV.val y)) : ℚ) / (vs.length : ℚ)) * 100))

/-- Model-training column order for the core features (src/app.py 27-30). -/
def MODEL_CORE_FEATURES : List String :=
  ["年龄", "体重指数", "(基础内分泌)FSH", "(基础内分泌)E2", "(基础内分泌)PRL",
   "(基础内分泌)LH", "(基础内分泌)T", "(基础内分泌)AMH", "左窦卵泡数", "右窦卵泡数"]

/-- Model-training column order for the dynamic features (src/app.py 31-36). -/
def MODEL_DYNAMIC_FEATURES : List String :=
  ["血E2_1", "血LH_1", "血FSH_1", "血P_1", "Day_1",
   "血E2_2", "血LH_2", "血FSH_2", "血P_2", "Day_2",
   "血E2_3", "血LH_3", "血FSH_3", "血P_3", "Day_3",
   "最大卵泡测定日3", "左侧最大卵泡直径3", "右侧最大卵巢直径3"]

/-- All features: core followed by dynamic (src/app.py 37). -/
def MODEL_ALL_FEATURES : List String :=
  MODEL_CORE_FEATURES ++ MODEL_DYNAMIC_FEATURES

/-- The value used for a named field: absent entries and NaN entries become
`0.0` (`st.number_input(value=0.0)` plus `input_df.fillna(0.0)`); supplied
finite values pass through unchanged. -/
def fillVal (input : String → Option FloatV) (name : String) : ℚ :=
  match input name with
  | none => 0
  | some FloatV.nan => 0
  | some (FloatV.val x) => x

/-- Model of `X_core = input_df_filled[MODEL_CORE_FEATURES]` (src/app.py 72). -/
def X_core (input : String → Option FloatV) : List ℚ :=
  MODEL_CORE_FEATURES.map (fillVal input)

/-- Model of `X_all = input_df_filled[MODEL_ALL_FEATURES]` (src/app.py 73). -/
def X_all (input : String → Option FloatV) : List ℚ :=
  MODEL_ALL_FEATURES.map (fillVal input)

/-- A resolved trigger day: a literal day number, or the `"N/A"` sentinel. -/
inductive DayOrNA where
  | day (d : ℚ) : DayOrNA
  | na : DayOrNA
deriving DecidableEq

/-- Model of `trigger_label_day_mapping.get(trigger_label, "N/A")`
(src/app.py 82); the pickled dict is modelled as an association list. -/
def trigger_day_pred (mapping : List (ℤ × ℚ)) (label : ℤ) : DayOrNA :=
  match mapping.lookup label with
  | some d => DayOrNA.day d
  | none => DayOrNA.na

/-- What the E2 plot loop emits for one field: the P25-P75 bar endpoints when
both quantiles are present, and the scattered point with its percentile-rank
outcome. -/
structure FieldRender where
  bar : Option (FloatV × FloatV)
  point : Option (ℚ × PRResult)
deriving DecidableEq

/-- The three keys the E2 plot loop iterates over (src/app.py 127). -/
def e2Keys : List String :=
  ["血E2_1", "血E2_2", "血E2_3"]

/-- One iteration of the E2 plot loop (src/app.py 127-143): fields whose
distribution stats are null are skipped.  The filled input value is never NaN
(it went through `fillna(0.0)`), so the `not np.isnan(val)` guard always
passes and the point is always drawn when stats exist. -/
def renderField (dists : String → Option DistObj) (input : String → Option FloatV)
    (key : String) : Option FieldRender :=
  match get_dist_stats (dists key) with
  | none => none
  | some stats =>
    some { bar := match stats.p25, stats.p75 with
                  | some a, some b => some (a, b)
                  | _, _ => none,
           point := some (fillVal input key,
                          percentile_rank stats.values (FloatV.val (fillVal input key))) }

/-- The whole E2 plot loop: one (possibly skipped) render per key. -/
def renderLoop (dists : String → Option DistObj) (input : String → Option FloatV) :
    List (Option FieldRender) :=
  e2Keys.map (renderField dists input)

/-- Evaluation helper: `Int.toNat 2` is `2`. -/
theorem int_toNat_two : Int.toNat 2 = 2 := by simp

/-- Rounding with `pyRound` never goes below the floor. -/
theorem pyRound_ge_floor (q : ℚ) : ⌊q⌋ ≤ pyRound q := by
  unfold pyRound
  split_ifs <;> omega

/-- Rounding with `pyRound` never exceeds the floor plus one. -/
theorem pyRound_le_floor_add_one (q : ℚ) : pyRound q ≤ ⌊q⌋ + 1 := by
  unfold pyRound
  split_ifs <;> omega

/-- Monotonicity of `pyRound`. -/
theorem pyRound_mono {a b : ℚ} (hab : a ≤ b) : pyRound a ≤ pyRound b := by
  rcases lt_or_eq_of_le (Int.floor_mono hab) with hf | hf
  · calc pyRound a ≤ ⌊a⌋ + 1 := pyRound_le_floor_add_one a
      _ ≤ ⌊b⌋ := by omega
      _ ≤ pyRound b := pyRound_ge_floor b
  · unfold pyRound
    rw [hf]
    split_ifs <;> first | omega | linarith

/-- Nonnegative rationals round to nonnegative integers. -/
theorem pyRound_nonneg {q : ℚ} (h : 0 ≤ q) : 0 ≤ pyRound q := by
  have h0 : pyRound 0 = 0 := by norm_num [pyRound]
  calc (0 : ℤ) = pyRound 0 := h0.symm
    _ ≤ pyRound q := pyRound_mono h

/-- Rationals at most 100 round to at most 100. -/
theorem pyRound_le_hundred {q : ℚ} (h : q ≤ 100) : pyRound q ≤ 100 := by
  have h100 : pyRound 100 = 100 := by norm_num [pyRound]
  calc pyRound q ≤ pyRound 100 := pyRound_mono h
    _ = 100 := h100

/-- Sorting with `sortRats` produces a list sorted by `≤`. -/
theorem sortRats_sorted (l : List ℚ) : (sortRats l).Sorted (fun a b => a ≤ b) :=
  List.sorted_insertionSort _ l

/-- Sorting with `sortRats` permutes the input. -/
theorem sortRats_perm (l : List ℚ) : List.Perm (sortRats l) l :=
  List.perm_insertionSort _ l

/-- Sorting with `sortRats` preserves length. -/
theorem sortRats_length (l : List ℚ) : (sortRats l).length = l.length :=
  (sortRats_perm l).length_eq

/-- In a `≤`-sorted list, `getD _ 0` is monotone on in-range indices. -/
theorem sorted_getD_mono {s : List ℚ} (hs : s.Sorted (fun a b => a ≤ b)) {a b : ℕ}
    (hab : a ≤ b) (hb : b < s.length) : s.getD a 0 ≤ s.getD b 0 := by
  rw [List.getD_eq_get _ _ (lt_of_le_of_lt hab hb), List.getD_eq_get _ _ hb]
  exact hs.rel_get_of_le (by simpa using hab)

/-- In a `≤`-sorted list, the clipped upper sample of a cell is at least the
lower sample. -/
theorem getD_succ_ge {s : List ℚ} (hs : s.Sorted (fun a b => a ≤ b)) (i : ℕ) :
    s.getD i 0 ≤ s.getD (i + 1) (s.getD i 0) := by
  rcases Nat.lt_or_ge (i + 1) s.length with h | h
  · have hmono := sorted_getD_mono hs (Nat.le_succ i) h
    rw [List.getD_eq_get _ _ h]
    rwa [List.getD_eq_get _ _ h] at hmono
  · rw [List.getD_eq_default _ _ h]

/-- Linear interpolation into a sorted list is monotone in the position, on
in-range positions. -/
theorem interpAt_mono {s : List ℚ} (hs : s.Sorted (fun a b => a ≤ b)) {p p' : ℚ}
    (h0 : 0 ≤ p) (hpp : p ≤ p') (hub : p' ≤ (s.length : ℚ) - 1) :
    interpAt s p ≤ interpAt s p' := by
  have h0' : 0 ≤ p' := le_trans h0 hpp
  have hfpZ : (((⌊p⌋).toNat : ℕ) : ℤ) = ⌊p⌋ := Int.toNat_of_nonneg (Int.floor_nonneg.mpr h0)
  have hfp'Z : (((⌊p'⌋).toNat : ℕ) : ℤ) = ⌊p'⌋ := Int.toNat_of_nonneg (Int.floor_nonneg.mpr h0')
  have hfpQ : (((⌊p⌋).toNat : ℕ) : ℚ) = ((⌊p⌋ : ℤ) : ℚ) := by exact_mod_cast congrArg Int.cast hfpZ
  have hfp'Q : (((⌊p'⌋).toNat : ℕ) : ℚ) = ((⌊p'⌋ : ℤ) : ℚ) := by
    exact_mod_cast congrArg Int.cast hfp'Z
  have hlo : (((⌊p⌋).toNat : ℕ) : ℚ) ≤ p := by rw [hfpQ]; exact Int.floor_le p
  have hhi : p < (((⌊p⌋).toNat : ℕ) : ℚ) + 1 := by rw [hfpQ]; exact Int.lt_floor_add_one p
  have hlo' : (((⌊p'⌋).toNat : ℕ) : ℚ) ≤ p' := by rw [hfp'Q]; exact Int.floor_le p'
  have hii : (⌊p⌋).toNat ≤ (⌊p'⌋).toNat := Int.toNat_le_toNat (Int.floor_mono hpp)
  have hi'n : (⌊p'⌋).toNat + 1 ≤ s.length := by
    have h2 : (((⌊p'⌋).toNat : ℕ) : ℚ) + 1 ≤ (s.length : ℚ) := by linarith
    exact_mod_cast h2
  unfold interpAt
  rcases Nat.lt_or_ge (⌊p⌋).toNat (⌊p'⌋).toNat with hlt | hge
  · -- the two positions fall in different cells
    have hi1n : (⌊p⌋).toNat + 1 < s.length := by omega
    have hclip : s.getD ((⌊p⌋).toNat + 1) (s.getD (⌊p⌋).toNat 0) =
        s.getD ((⌊p⌋).toNat + 1) 0 := by
      rw [List.getD_eq_get _ _ hi1n, List.getD_eq_get _ _ hi1n]
    rw [hclip]
    have e1 : s.getD (⌊p⌋).toNat 0 ≤ s.getD ((⌊p⌋).toNat + 1) 0 :=
      sorted_getD_mono hs (Nat.le_succ _) hi1n
    have e2 : s.getD ((⌊p⌋).toNat + 1) 0 ≤ s.getD (⌊p'⌋).toNat 0 :=
      sorted_getD_mono hs (by omega) (by omega)
    have e3 : s.getD (⌊p'⌋).toNat 0 ≤
        s.getD ((⌊p'⌋).toNat + 1) (s.getD (⌊p'⌋).toNat 0) := getD_succ_ge hs _
    have hfr1 : p - (((⌊p⌋).toNat : ℕ) : ℚ) ≤ 1 := by linarith
    have hfr0 : 0 ≤ p - (((⌊p⌋).toNat : ℕ) : ℚ) := by linarith
    have hfr'0 : 0 ≤ p' - (((⌊p'⌋).toNat : ℕ) : ℚ) := by linarith
    nlinarith [mul_nonneg hfr'0 (sub_nonneg.mpr e3),
               mul_nonneg (sub_nonneg.mpr hfr1) (sub_nonneg.mpr e1)]
  · -- equal cells
    have heq : (⌊p⌋).toNat = (⌊p'⌋).toNat := le_antisymm hii hge
    rw [heq]
    have hin : (⌊p'⌋).toNat < s.length := by omega
    have e3 : s.getD (⌊p'⌋).toNat 0 ≤
        s.getD ((⌊p'⌋).toNat + 1) (s.getD (⌊p'⌋).toNat 0) := getD_succ_ge hs _
    have hfr : p - (((⌊p'⌋).toNat : ℕ) : ℚ) ≤ p' - (((⌊p'⌋).toNat : ℕ) : ℚ) := by linarith
    nlinarith [mul_nonneg (sub_nonneg.mpr hfr) (sub_nonneg.mpr e3)]

/-- Monotonicity of `npPercentile` in the percentile, on nonempty samples and
percentiles drawn from `[0, 100]`. -/
theorem npPercentile_mono {l : List ℚ} (hl : l ≠ []) {q q' : ℚ}
    (h0 : 0 ≤ q) (hqq : q ≤ q') (h100 : q' ≤ 100) :
    npPercentile q l ≤ npPercentile q' l := by
  unfold npPercentile
  have hs : (sortRats l).Sorted (fun a b => a ≤ b) := sortRats_sorted l
  have hn : 1 ≤ (sortRats l).length := by
    rw [sortRats_length]
    exact List.length_pos.mpr hl
  have hn1 : (1 : ℚ) ≤ ((sortRats l).length : ℚ) := by exact_mod_cast hn
  have hd : (0 : ℚ) ≤ ((sortRats l).length : ℚ) - 1 := by linarith
  apply interpAt_mono hs
  · exact div_nonneg (mul_nonneg h0 hd) (by norm_num)
  · gcongr
  · rw [div_le_iff (by norm_num : (0 : ℚ) < 100)]
    nlinarith

/-- Entries of the cleaned array are not NaN. -/
theorem cleanArr_no_nan {l : List FloatV} {v : FloatV} (hv : v ∈ cleanArr l) :
    v.isNaN = false := by
  have := (List.mem_filter.mp hv).2
  simpa using this

/-- On a NaN-free list, `ratsOf` keeps every entry. -/
theorem ratsOf_cleanArr_length (l : List FloatV) :
    (ratsOf (cleanArr l)).length = (cleanArr l).length := by
  induction l with
  | nil => rfl
  | cons v l ih =>
    cases v with
    | nan => simpa [cleanArr, ratsOf, FloatV.isNaN, FloatV.toRat] using ih
    | val x => simpa [cleanArr, ratsOf, FloatV.isNaN, FloatV.toRat] using ih

/-- A nonempty cleaned array yields a nonempty rational sample. -/
theorem ratsOf_cleanArr_ne_nil {l : List FloatV} (h : cleanArr l ≠ []) :
    ratsOf (cleanArr l) ≠ [] := by
  intro hnil
  apply h
  have hlen : (ratsOf (cleanArr l)).length = 0 := by rw [hnil]; rfl
  rw [ratsOf_cleanArr_length] at hlen
  exact List.length_eq_zero.mp hlen

/-- Unconditional shape of `percentile_rank` on a nonempty array and a finite
value: the rounded scaled proportion of strictly smaller reference entries. -/
theorem percentile_rank_rank_val {vs : List FloatV} (h : vs.length ≠ 0) (x : ℚ) :
    percentile_rank (some vs) (FloatV.val x) =
      PRResult.rank (pyRound
        (((vs.countP (fun v => FloatV.ltB v (FloatV.val x))) : ℚ) / (vs.length : ℚ) * 100)) := by
  simp only [percentile_rank, if_neg h]

/-- C1: for every non-null, non-empty reference sample array `V` and every
non-NaN observed value `x`, `percentile_rank (V, x)` equals
`round (100 * count (v in V with v < x) / count V)` as an integer, with
elements equal to `x` not counted (strict inequality); in particular on
`[10, 20, 20, 30]` with `x = 20` the result is 25. -/
theorem percentile_rank_eq_round_strict_count :
    (∀ (V : List FloatV), V ≠ [] → ∀ x : ℚ,
      percentile_rank (some V) (FloatV.val x) =
        PRResult.rank (pyRound
          (100 * ((V.countP (fun v => FloatV.ltB v (FloatV.val x))) : ℚ) / (V.length : ℚ)))) ∧
    percentile_rank (some [FloatV.val 10, FloatV.val 20, FloatV.val 20, FloatV.val 30])
      (FloatV.val 20) = PRResult.rank 25 := by
  constructor
  · intro V hV x
    have hlen : V.length ≠ 0 := by simpa [List.length_eq_zero] using hV
    rw [percentile_rank_rank_val hlen x]
    congr 1
    congr 1
    ring
  · norm_num [percentile_rank, pyRound, FloatV.ltB]

/-- Witness for C1 at the concrete sample `[1, 3]` and value `2`. -/
theorem percentile_rank_eq_round_strict_count_witness :
    percentile_rank (some [FloatV.val 1, FloatV.val 3]) (FloatV.val 2) = PRResult.rank 50 := by
  rw [percentile_rank_eq_round_strict_count.1 [FloatV.val 1, FloatV.val 3] (by simp) 2]
  norm_num [pyRound, FloatV.ltB]

/-- C3 counterexample: on an empty non-null array with a finite value the
code does not return null; `np.sum([]) / 0` is NaN and `int(round(nan))`
raises, modelled as `PRResult.err`. -/
theorem percentile_rank_empty_not_null :
    percentile_rank (some ([] : List FloatV)) (FloatV.val 0) = PRResult.err ∧
    PRResult.err ≠ PRResult.null := by
  constructor
  · rfl
  · simp

/-- C3 (amended): `percentile_rank (V, x)` returns null exactly when `V` is
null or `x` is NaN; on those inputs it returns null rather than failing.  An
empty non-null array with a finite value instead fails. -/
theorem percentile_rank_null_iff :
    ∀ (V : Option (List FloatV)) (x : FloatV),
      percentile_rank V x = PRResult.null ↔ V = none ∨ x = FloatV.nan := by
  intro V x
  cases V with
  | none => simp [percentile_rank]
  | some vs =>
    cases x with
    | nan => simp [percentile_rank]
    | val y =>
      simp only [percentile_rank]
      constructor
      · intro h
        split_ifs at h <;> simp_all
      · rintro (h | h) <;> simp_all

/-- Witness for C3 (amended) at `V = none`, `x = 1`. -/
theorem percentile_rank_null_iff_witness :
    percentile_rank (none : Option (List FloatV)) (FloatV.val 1) = PRResult.null :=
  (percentile_rank_null_iff none (FloatV.val 1)).mpr (Or.inl rfl)

/-- C4: on every non-empty sample array and finite observed values, the
percentile rank is an integer in `[0, 100]` and is non-decreasing in the
observed value. -/
theorem percentile_rank_range_and_mono :
    ∀ (vs : List FloatV), vs ≠ [] → ∀ x1 x2 : ℚ, x1 ≤ x2 →
      ∃ r1 r2 : ℤ,
        percentile_rank (some vs) (FloatV.val x1) = PRResult.rank r1 ∧
        percentile_rank (some vs) (FloatV.val x2) = PRResult.rank r2 ∧
        0 ≤ r1 ∧ r1 ≤ 100 ∧ 0 ≤ r2 ∧ r2 ≤ 100 ∧ r1 ≤ r2 := by
  intro vs hvs x1 x2 hx
  have hlen : vs.length ≠ 0 := by simpa [List.length_eq_zero] using hvs
  have hlenQ : (0 : ℚ) < (vs.length : ℚ) := by
    exact_mod_cast Nat.pos_of_ne_zero hlen
  have hcount1 : ((vs.countP (fun v => FloatV.ltB v (FloatV.val x1))) : ℚ) ≤ (vs.length : ℚ) := by
    exact_mod_cast List.countP_le_length _
  have hcount2 : ((vs.countP (fun v => FloatV.ltB v (FloatV.val x2))) : ℚ) ≤ (vs.length : ℚ) := by
    exact_mod_cast List.countP_le_length _
  have hmonoP : vs.countP (fun v => FloatV.ltB v (FloatV.val x1)) ≤
      vs.countP (fun v => FloatV.ltB v (FloatV.val x2)) := by
    apply List.countP_mono_left
    intro v _ hv
    cases v with
    | nan => simpa [FloatV.ltB] using hv
    | val a =>
      simp only [FloatV.ltB, decide_eq_true_eq] at hv ⊢
      linarith
  have hmonoQ : ((vs.countP (fun v => FloatV.ltB v (FloatV.val x1))) : ℚ) ≤
      ((vs.countP (fun v => FloatV.ltB v (FloatV.val x2))) : ℚ) := by exact_mod_cast hmonoP
  refine ⟨_, _, percentile_rank_rank_val hlen x1, percentile_rank_rank_val hlen x2,
    ?_, ?_, ?_, ?_, ?_⟩
  · exact pyRound_nonneg (by positivity)
  · apply pyRound_le_hundred
    have h1 : ((vs.countP (fun v => FloatV.ltB v (FloatV.val x1))) : ℚ) / (vs.length : ℚ) ≤ 1 :=
      (div_le_one hlenQ).mpr hcount1
    nlinarith
  · exact pyRound_nonneg (by positivity)
  · apply pyRound_le_hundred
    have h2 : ((vs.countP (fun v => FloatV.ltB v (FloatV.val x2))) : ℚ) / (vs.length : ℚ) ≤ 1 :=
      (div_le_one hlenQ).mpr hcount2
    nlinarith
  · apply pyRound_mono
    gcongr

/-- Witness for C4 at the sample `[5]` and values `3 ≤ 7`. -/
theorem percentile_rank_range_and_mono_witness :
    ∃ r1 r2 : ℤ,
      percentile_rank (some [FloatV.val 5]) (FloatV.val 3) = PRResult.rank r1 ∧
      percentile_rank (some [FloatV.val 5]) (FloatV.val 7) = PRResult.rank r2 ∧
      0 ≤ r1 ∧ r1 ≤ 100 ∧ 0 ≤ r2 ∧ r2 ≤ 100 ∧ r1 ≤ r2 :=
  percentile_rank_range_and_mono [FloatV.val 5] (by simp) 3 7 (by norm_num)

/-- C5: on a summary dict, `get_dist_stats` returns the dict's `p25`, `p50`,
`p75` verbatim (null for missing keys) and a null raw-sample field, and
`percentile_rank` on that null raw-sample field returns null for every
observed value. -/
theorem get_dist_stats_dict_and_null_rank :
    (∀ a b c : Option FloatV,
      get_dist_stats (some (DistObj.dict a b c)) =
        some { p25 := a, p50 := b, p75 := c, values := none }) ∧
    (∀ (a b c : Option FloatV) (s : DistStats) (x : FloatV),
      get_dist_stats (some (DistObj.dict a b c)) = some s →
      percentile_rank s.values x = PRResult.null) := by
  refine ⟨fun a b c => rfl, ?_⟩
  intro a b c s x h
  have hs : ({ p25 := a, p50 := b, p75 := c, values := none } : DistStats) = s :=
    Option.some.inj h
  rw [← hs]
  rfl

/-- Witness for C5 at a dict with only `p25` present and observed value 7. -/
theorem get_dist_stats_dict_and_null_rank_witness :
    get_dist_stats (some (DistObj.dict (some (FloatV.val 1)) none none)) =
      some { p25 := some (FloatV.val 1), p50 := none, p75 := none, values := none } ∧
    percentile_rank (DistStats.mk (some (FloatV.val 1)) none none none).values
      (FloatV.val 7) = PRResult.null :=
  ⟨get_dist_stats_dict_and_null_rank.1 (some (FloatV.val 1)) none none,
   get_dist_stats_dict_and_null_rank.2 (some (FloatV.val 1)) none none _ (FloatV.val 7)
     (get_dist_stats_dict_and_null_rank.1 (some (FloatV.val 1)) none none)⟩

/-- C7: the orchestrator resolves a predicted trigger-day class through the
class-to-day mapping table, and substitutes the `"N/A"` sentinel for every
class not present in the table instead of failing. -/
theorem trigger_day_pred_lookup_or_sentinel :
    ∀ (mapping : List (ℤ × ℚ)) (label : ℤ),
      (∀ d : ℚ, mapping.lookup label = some d →
        trigger_day_pred mapping label = DayOrNA.day d) ∧
      (mapping.lookup label = none → trigger_day_pred mapping label = DayOrNA.na) := by
  intro mapping label
  constructor
  · intro d hd
    simp [trigger_day_pred, hd]
  · intro h
    simp [trigger_day_pred, h]

/-- Witness for C7: class 2 is absent from the table `[(1, 16)]` and maps to
the sentinel; class 1 is present and maps to day 16. -/
theorem trigger_day_pred_lookup_or_sentinel_witness :
    trigger_day_pred [((1 : ℤ), (16 : ℚ))] 2 = DayOrNA.na ∧
    trigger_day_pred [((1 : ℤ), (16 : ℚ))] 1 = DayOrNA.day 16 := by
  constructor
  · exact (trigger_day_pred_lookup_or_sentinel [(1, 16)] 2).2 rfl
  · exact (trigger_day_pred_lookup_or_sentinel [(1, 16)] 1).1 16 rfl

/-- Unfolding equation for `get_dist_stats` on the raw-array branch. -/
theorem get_dist_stats_arr_eq (vals : List FloatV) :
    get_dist_stats (some (DistObj.arr vals)) =
      if (cleanArr vals).isEmpty then none
      else some (DistStats.mk
        (some (FloatV.val (npPercentile 25 (ratsOf (cleanArr vals)))))
        (some (FloatV.val (npPercentile 50 (ratsOf (cleanArr vals)))))
        (some (FloatV.val (npPercentile 75 (ratsOf (cleanArr vals)))))
        (some (cleanArr vals))) := rfl

/-- C2 counterexample: on the raw array `[NaN, 10, 20, 30, 40]` the code's
linear-interpolation percentiles are p25 = 17.5 and p75 = 32.5, not the
claimed 15.0 and 35.0 (p50 = 25.0 and the cleaned length 4 are as claimed). -/
theorem get_dist_stats_example_quantiles :
    get_dist_stats (some (DistObj.arr
        [FloatV.nan, FloatV.val 10, FloatV.val 20, FloatV.val 30, FloatV.val 40])) =
      some (DistStats.mk (some (FloatV.val (35 / 2))) (some (FloatV.val 25))
        (some (FloatV.val (65 / 2)))
        (some [FloatV.val 10, FloatV.val 20, FloatV.val 30, FloatV.val 40])) ∧
    (35 / 2 : ℚ) ≠ 15 ∧ (65 / 2 : ℚ) ≠ 35 := by
  refine ⟨?_, by norm_num, by norm_num⟩
  norm_num [get_dist_stats, cleanArr, ratsOf, FloatV.isNaN, FloatV.toRat,
    npPercentile, sortRats, interpAt, int_toNat_two]

/-- C2 (amended): `get_dist_stats` on a raw array strips the NaN entries,
returns null if nothing remains (in particular on all-NaN input), and
otherwise returns the linear-interpolation p25/p50/p75 over the cleaned
array together with the cleaned array; on `[NaN, 10, 20, 30, 40]` it returns
p25 = 17.5, p50 = 25.0, p75 = 32.5 and a cleaned array of length 4. -/
theorem get_dist_stats_raw_array_behaviour :
    (∀ vals : List FloatV, cleanArr vals = [] →
      get_dist_stats (some (DistObj.arr vals)) = none) ∧
    (∀ vals : List FloatV, (∀ v ∈ vals, v.isNaN = true) →
      get_dist_stats (some (DistObj.arr vals)) = none) ∧
    (∀ vals : List FloatV, cleanArr vals ≠ [] →
      get_dist_stats (some (DistObj.arr vals)) =
        some (DistStats.mk
          (some (FloatV.val (npPercentile 25 (ratsOf (cleanArr vals)))))
          (some (FloatV.val (npPercentile 50 (ratsOf (cleanArr vals)))))
          (some (FloatV.val (npPercentile 75 (ratsOf (cleanArr vals)))))
          (some (cleanArr vals)))) ∧
    (get_dist_stats (some (DistObj.arr
        [FloatV.nan, FloatV.val 10, FloatV.val 20, FloatV.val 30, FloatV.val 40])) =
      some (DistStats.mk (some (FloatV.val (35 / 2))) (some (FloatV.val 25))
        (some (FloatV.val (65 / 2)))
        (some [FloatV.val 10, FloatV.val 20, FloatV.val 30, FloatV.val 40])) ∧
      [FloatV.val 10, FloatV.val 20, FloatV.val 30, FloatV.val 40].length = 4) := by
  refine ⟨?_, ?_, ?_, ?_, rfl⟩
  · intro vals h
    rw [get_dist_stats_arr_eq, h]
    rfl
  · intro vals h
    have hc : cleanArr vals = [] := by
      apply List.filter_eq_nil.mpr
      intro v hv
      simp [h v hv]
    rw [get_dist_stats_arr_eq, hc]
    rfl
  · intro vals h
    rw [get_dist_stats_arr_eq, if_neg]
    simp [List.isEmpty_iff, h]
  · norm_num [get_dist_stats, cleanArr, ratsOf, FloatV.isNaN, FloatV.toRat,
      npPercentile, sortRats, interpAt, int_toNat_two]

/-- Witness for C2 (amended): all-NaN input yields null, and a singleton
raw array yields its value as every quantile. -/
theorem get_dist_stats_raw_array_behaviour_witness :
    get_dist_stats (some (DistObj.arr [FloatV.nan])) = none ∧
    get_dist_stats (some (DistObj.arr [FloatV.val 4])) =
      some (DistStats.mk (some (FloatV.val 4)) (some (FloatV.val 4))
        (some (FloatV.val 4)) (some [FloatV.val 4])) := by
  constructor
  · exact get_dist_stats_raw_array_behaviour.2.1 [FloatV.nan] (by simp [FloatV.isNaN])
  · rw [get_dist_stats_raw_array_behaviour.2.2.1 [FloatV.val 4]
      (by simp [cleanArr, FloatV.isNaN])]
    norm_num [cleanArr, ratsOf, FloatV.isNaN, FloatV.toRat,
      npPercentile, sortRats, interpAt]

/-- A nonempty sample never produces the error outcome. -/
theorem percentile_rank_ne_err {vs : List FloatV} (h : vs ≠ []) (x : FloatV) :
    percentile_rank (some vs) x ≠ PRResult.err := by
  cases x with
  | nan => simp [percentile_rank]
  | val y =>
    have hlen : vs.length ≠ 0 := by simpa [List.length_eq_zero] using h
    rw [percentile_rank_rank_val hlen y]
    simp

/-- C9: whenever `get_dist_stats` returns a record with a non-null values
field, that array is nonempty; hence the division by the array length inside
`percentile_rank` applied to that values field is never a division by
zero. -/
theorem get_dist_stats_values_nonempty_no_div_zero :
    ∀ (d : Option DistObj) (s : DistStats) (vs : List FloatV),
      get_dist_stats d = some s → s.values = some vs →
      vs ≠ [] ∧ ∀ x : FloatV, percentile_rank s.values x ≠ PRResult.err := by
  intro d s vs hd hv
  match d with
  | none => exact absurd hd (by simp [get_dist_stats])
  | some (DistObj.dict a b c) =>
    have hs : DistStats.mk a b c none = s := Option.some.inj hd
    rw [← hs] at hv
    exact absurd hv (by simp)
  | some (DistObj.arr vals) =>
    rw [get_dist_stats_arr_eq vals] at hd
    by_cases he : (cleanArr vals).isEmpty
    · rw [if_pos he] at hd
      exact absurd hd (by simp)
    · rw [if_neg he] at hd
      have hs := Option.some.inj hd
      subst hs
      have hvs : cleanArr vals = vs := Option.some.inj (by simpa using hv)
      have hne : vs ≠ [] := by
        rw [← hvs]
        intro h0
        exact he (by simp [h0])
      refine ⟨hne, fun x => ?_⟩
      show percentile_rank (some (cleanArr vals)) x ≠ PRResult.err
      rw [hvs]
      exact percentile_rank_ne_err hne x

/-- Witness for C9 at the raw array `[1]`. -/
theorem get_dist_stats_values_nonempty_no_div_zero_witness :
    ([FloatV.val 1] : List FloatV) ≠ [] ∧
    ∀ x : FloatV,
      percentile_rank (DistStats.mk (some (FloatV.val 1)) (some (FloatV.val 1))
        (some (FloatV.val 1)) (some [FloatV.val 1])).values x ≠ PRResult.err :=
  get_dist_stats_values_nonempty_no_div_zero (some (DistObj.arr [FloatV.val 1]))
    (DistStats.mk (some (FloatV.val 1)) (some (FloatV.val 1)) (some (FloatV.val 1))
      (some [FloatV.val 1]))
    [FloatV.val 1]
    (by norm_num [get_dist_stats, cleanArr, ratsOf, FloatV.isNaN, FloatV.toRat,
      npPercentile, sortRats, interpAt])
    rfl

/-- C10: on raw-array inputs with a non-null result, the cleaned values
array contains no NaN entries and the returned quantiles satisfy
p25 ≤ p50 ≤ p75. -/
theorem get_dist_stats_no_nan_and_ordered_quantiles :
    ∀ (vals : List FloatV) (s : DistStats),
      get_dist_stats (some (DistObj.arr vals)) = some s →
      (∀ vs, s.values = some vs → ∀ v ∈ vs, v.isNaN = false) ∧
      ∃ a b c : ℚ, s.p25 = some (FloatV.val a) ∧ s.p50 = some (FloatV.val b) ∧
        s.p75 = some (FloatV.val c) ∧ a ≤ b ∧ b ≤ c := by
  intro vals s hd
  rw [get_dist_stats_arr_eq vals] at hd
  by_cases he : (cleanArr vals).isEmpty
  · rw [if_pos he] at hd
    exact absurd hd (by simp)
  · rw [if_neg he] at hd
    have hs := Option.some.inj hd
    subst hs
    constructor
    · intro vs hvs v hv
      have hvs' : cleanArr vals = vs := Option.some.inj (by simpa using hvs)
      rw [← hvs'] at hv
      exact cleanArr_no_nan hv
    · have hne : cleanArr vals ≠ [] := by
        intro h0
        exact he (by simp [h0])
      have hr : ratsOf (cleanArr vals) ≠ [] := ratsOf_cleanArr_ne_nil hne
      refine ⟨_, _, _, rfl, rfl, rfl, ?_, ?_⟩
      · exact npPercentile_mono hr (by norm_num) (by norm_num) (by norm_num)
      · exact npPercentile_mono hr (by norm_num) (by norm_num) (by norm_num)

/-- Witness for C10 at the raw array `[1, 2]`. -/
theorem get_dist_stats_no_nan_and_ordered_quantiles_witness :
    (∀ vs, (DistStats.mk (some (FloatV.val (5 / 4))) (some (FloatV.val (3 / 2)))
        (some (FloatV.val (7 / 4))) (some [FloatV.val 1, FloatV.val 2])).values = some vs →
      ∀ v ∈ vs, v.isNaN = false) ∧
    ∃ a b c : ℚ,
      (DistStats.mk (some (FloatV.val (5 / 4))) (some (FloatV.val (3 / 2)))
        (some (FloatV.val (7 / 4))) (some [FloatV.val 1, FloatV.val 2])).p25 =
          some (FloatV.val a) ∧
      (DistStats.mk (some (FloatV.val (5 / 4))) (some (FloatV.val (3 / 2)))
        (some (FloatV.val (7 / 4))) (some [FloatV.val 1, FloatV.val 2])).p50 =
          some (FloatV.val b) ∧
      (DistStats.mk (some (FloatV.val (5 / 4))) (some (FloatV.val (3 / 2)))
        (some (FloatV.val (7 / 4))) (some [FloatV.val 1, FloatV.val 2])).p75 =
          some (FloatV.val c) ∧ a ≤ b ∧ b ≤ c :=
  get_dist_stats_no_nan_and_ordered_quantiles [FloatV.val 1, FloatV.val 2]
    (DistStats.mk (some (FloatV.val (5 / 4))) (some (FloatV.val (3 / 2)))
      (some (FloatV.val (7 / 4))) (some [FloatV.val 1, FloatV.val 2]))
    (by norm_num [get_dist_stats, cleanArr, ratsOf, FloatV.isNaN, FloatV.toRat,
      npPercentile, sortRats, interpAt])

/-- C6: feature assembly selects the 10 core field names in their fixed
order, the all-features vector is the core fields followed by the 18 dynamic
fields in their fixed order, absent and NaN entries become 0.0, supplied
values pass through unchanged; in particular an input missing
`(基础内分泌)E2` yields a core vector with 0.0 in that position and all
other positions equal to the supplied values. -/
theorem feature_assembly_fixed_order_default_zero :
    (∀ input : String → Option FloatV,
      X_all input = X_core input ++ MODEL_DYNAMIC_FEATURES.map (fillVal input)) ∧
    (∀ input : String → Option FloatV, (X_core input).length = 10) ∧
    (∀ input : String → Option FloatV, (X_all input).length = 28) ∧
    (∀ (input : String → Option FloatV) (name : String),
      input name = none → fillVal input name = 0) ∧
    (∀ (input : String → Option FloatV) (name : String),
      input name = some FloatV.nan → fillVal input name = 0) ∧
    (∀ (input : String → Option FloatV) (name : String) (x : ℚ),
      input name = some (FloatV.val x) → fillVal input name = x) ∧
    (∀ f : String → ℚ,
      X_core (fun n => if n = "(基础内分泌)E2" then none else some (FloatV.val (f n))) =
        [f "年龄", f "体重指数", f "(基础内分泌)FSH", 0, f "(基础内分泌)PRL",
         f "(基础内分泌)LH", f "(基础内分泌)T", f "(基础内分泌)AMH",
         f "左窦卵泡数", f "右窦卵泡数"]) := by
  refine ⟨?_, fun _ => rfl, fun _ => rfl, ?_, ?_, ?_, ?_⟩
  · intro input
    simp [X_all, X_core, MODEL_ALL_FEATURES]
  · intro input name h
    simp [fillVal, h]
  · intro input name h
    simp [fillVal, h]
  · intro input name x h
    simp [fillVal, h]
  · intro f
    simp [X_core, MODEL_CORE_FEATURES, fillVal]

/-- Witness for C6: the concrete input supplying 2.0 everywhere except the
absent `(基础内分泌)E2` field. -/
theorem feature_assembly_fixed_order_default_zero_witness :
    X_core (fun n => if n = "(基础内分泌)E2" then none else some (FloatV.val 2)) =
      [2, 2, 2, 0, 2, 2, 2, 2, 2, 2] := by
  have h := feature_assembly_fixed_order_default_zero.2.2.2.2.2.2 (fun _ => 2)
  simpa using h

/-- C8: a field whose reference-distribution entry is absent is skipped (no
chart element, no percentile annotation), the loop still renders each of the
three fields, and each field's render depends only on that field's own
distribution entry, so one missing entry never affects the rest. -/
theorem render_loop_skip_missing_and_local :
    (∀ (dists : String → Option DistObj) (input : String → Option FloatV) (key : String),
      dists key = none → renderField dists input key = none) ∧
    (∀ (dists : String → Option DistObj) (input : String → Option FloatV),
      renderLoop dists input =
        [renderField dists input "血E2_1", renderField dists input "血E2_2",
         renderField dists input "血E2_3"]) ∧
    (∀ (dists1 dists2 : String → Option DistObj) (input : String → Option FloatV)
      (key : String), dists1 key = dists2 key →
      renderField dists1 input key = renderField dists2 input key) := by
  refine ⟨?_, fun _ _ => rfl, ?_⟩
  · intro dists input key h
    simp [renderField, h, get_dist_stats]
  · intro d1 d2 input key h
    simp only [renderField, h]

/-- Witness for C8: with an empty distribution table, the first field is
skipped and the loop still produces an entry per field. -/
theorem render_loop_skip_missing_and_local_witness :
    renderField (fun _ => none) (fun _ => none) "血E2_1" = none ∧
    renderLoop (fun _ => none) (fun _ => none) =
      [renderField (fun _ => none) (fun _ => none) "血E2_1",
       renderField (fun _ => none) (fun _ => none) "血E2_2",
       renderField (fun _ => none) (fun _ => none) "血E2_3"] :=
  ⟨render_loop_skip_missing_and_local.1 (fun _ => none) (fun _ => none) "血E2_1" rfl,
   render_loop_skip_missing_and_local.2.1 (fun _ => none) (fun _ => none)⟩
